import Mathlib

/-!
Shallow embedding of the staking-facilities assignment service
(`src/client.go`, `src/main.go`): the slot-bounded block-reward query, the
MEV/vanilla classification, the sync-committee duty query, the REST error
mapping, the rate-limited transport and the HTTP handlers.

Upstream behaviour (the beacon REST API and the execution-layer RPC) is a
parameter `Env` of every operation; the embedded functions reproduce the Go
control flow over it.  Machine integers are modelled as `Nat`/`Int` with the
explicit `uint64 → int64` reinterpretation the Go code performs, and the
`big.Float` division/rendering of the reward is modelled bit-faithfully
(round to nearest, ties to even, significand precision `max 64 (bitlen)`,
then fixed 9-decimal rendering with ties to even, as `math/big` documents).
-/

namespace StakingService

/-! ## The `big.Float` reward rendering (client.go lines 251-252) -/

/-- Number of binary digits of `n`, computed with explicit fuel so that the
kernel can evaluate it; `nbitsGo fuel n` is correct for every `n < 2 ^ fuel`. -/
def nbitsGo (fuel : Nat) (n : Nat) : Nat :=
  match fuel with
  | 0 => 0
  | f + 1 => if n = 0 then 0 else nbitsGo f (n / 2) + 1

/-- `big.Int.BitLen`: the length of the binary representation. -/
def nbits (n : Nat) : Nat := nbitsGo 4096 n

/-- Round `a / b` to the nearest integer, ties to even: the rounding used by
`math/big` both for `Float.Quo` (on the significand) and for the decimal
conversion done by `Float.Text`. -/
def rne (a b : Nat) : Nat :=
  if 2 * (a % b) < b then a / b
  else if b < 2 * (a % b) then a / b + 1
  else if (a / b) % 2 = 0 then a / b else a / b + 1

/-- The significand precision `big.Float` uses for `SetInt(reward)` and hence
for `Quo`: the larger of 64 and the bit length. -/
def floatPrec (k : Nat) : Nat := max 64 (nbits k)

/-- The scaling exponent for the division `reward / 10^9` at precision
`floatPrec k`: the unique `t` with `10^9 * 2^(p-1) ≤ k * 2^t < 10^9 * 2^p`. -/
def tExp (k : Nat) : Nat :=
  let p := floatPrec k
  let t0 := p + 29 - nbits k
  if k * 2 ^ (t0 + 1) < 10 ^ 9 * 2 ^ p then t0 + 1 else t0

/-- The scaled decimal digits produced by `Text('f', 9)` for the positive value
`k / 10^9`: first the quotient is rounded to `floatPrec k` significand bits
(nearest, ties to even), then the resulting binary value is rounded to 9
decimal places (nearest, ties to even).  The result is the integer
`round(round_binary(k / 10^9) * 10^9)`. -/
def goDigits (k : Nat) : Nat :=
  let t := tExp k
  let m := rne (k * 2 ^ t) (10 ^ 9)
  rne (m * 10 ^ 9) (2 ^ t)

/-- The 9 decimal digits of `n < 10^9`, most significant first, zero padded. -/
def pad9 (n : Nat) : String :=
  String.mk ((List.range 9).map (fun i => Nat.digitChar (n / 10 ^ (8 - i) % 10)))

/-- The decimal digit characters of `n`, most significant first (fuel-driven
so the kernel can evaluate it; exact for every `n < 10 ^ 1300`). -/
def natDecDigits (fuel n : Nat) : List Char :=
  match fuel with
  | 0 => []
  | f + 1 =>
    if n < 10 then [Nat.digitChar n]
    else natDecDigits f (n / 10) ++ [Nat.digitChar (n % 10)]

/-- Decimal rendering of a natural number. -/
def natDecString (n : Nat) : String := String.mk (natDecDigits 1300 n)

/-- Fixed 9-decimal rendering of the scaled digit count `d`:
`d / 10^9 ++ "." ++` the 9 remaining digits. -/
def renderDigits (d : Nat) : String :=
  natDecString (d / 10 ^ 9) ++ "." ++ pad9 (d % 10 ^ 9)

/-- `new(big.Float).Quo(SetInt(reward), SetInt(GWEI)).Text('f', 9)`:
sign-magnitude rendering of `k / 10^9` through binary rounding at precision
`max 64 (bitlen k)` followed by decimal rounding to 9 places. -/
def goFloatText9 (k : Int) : String :=
  if k = 0 then "0.000000000"
  else if 0 < k then renderDigits (goDigits k.toNat)
  else "-" ++ renderDigits (goDigits (-k).toNat)

/-- Modelled from the spec: the exact fixed 9-decimal rendering of the
rational number `k / 10^9` ("expressed as native units, then divided by 10^9
and rendered with exactly 9 decimal digits, preserving sign").  Since `k` is
an integer, `k / 10^9` has exactly this finite decimal expansion. -/
def exactText9 (k : Int) : String :=
  if k < 0 then "-" ++ renderDigits (-k).toNat else renderDigits k.toNat

/-! ## Data model (client.go) -/

/-- A transaction receipt as consumed by the reward loop: `EffectiveGasPrice`
(a `big.Int`) and `GasUsed` (a `uint64`). -/
structure Receipt where
  effectiveGasPrice : Int
  gasUsed : Nat
  deriving Repr, DecidableEq

/-- A transaction of the fetched block, together with the outcome of the
receipt fetch `TransactionReceipt(ctx, tx.Hash())` for it (`none` models the
call returning an error).  `gasPrice`, `value`, `blobGasFeeCap` are `big.Int`
fields, `gas` and `blobGas` are `uint64`. -/
structure Tx where
  gasPrice : Int
  gas : Nat
  value : Int
  isBlob : Bool
  blobGasFeeCap : Int
  blobGas : Nat
  receiptOutcome : Option Receipt
  deriving Repr, DecidableEq

/-- The execution-layer block returned by `BlockByHash`. -/
structure Block where
  baseFee : Int
  gasUsed : Nat
  txs : List Tx
  deriving Repr, DecidableEq

/-- The Go conversion `int64(u)` of a `uint64` value, as used in
`big.NewInt(int64(block.GasUsed()))` and
`big.NewInt(int64(receipt.GasUsed))`. -/
def int64OfUInt64 (n : Nat) : Int :=
  if n < 2 ^ 63 then (n : Int) else (n : Int) - 2 ^ 64

/-- `tx.Cost()` of go-ethereum: `gasPrice * gas` plus, for blob transactions,
`blobGasFeeCap * blobGas`, plus the transferred `value`.  (`tx.Gas()` is
injected with `SetUint64`, hence no `int64` reinterpretation here.) -/
def txCost (tx : Tx) : Int :=
  tx.gasPrice * (tx.gas : Int)
    + (if tx.isBlob then tx.blobGasFeeCap * (tx.blobGas : Int) else 0)
    + tx.value

/-- Modelled from the spec: the per-transaction fallback cost the claims
describe, "declared gas price × gas limit". -/
def specFallbackCost (tx : Tx) : Int := tx.gasPrice * (tx.gas : Int)

/-- Errors the client can return, by Go dynamic type: `SlotMissingError` and
`FutureSlotError` carry their message (the handlers match on the type with
`errors.As` and serialize the message); all remaining kinds are opaque to the
handlers. -/
inductive GoError where
  | slotMissing (msg : String)
  | futureSlot (msg : String)
  | parseErr (msg : String)
  | decodeErr
  | transportErr
  | rpcErr
  deriving Repr, DecidableEq

/-- What `sendAPIRequest` observes for one endpoint: either the HTTP exchange
itself failed (request creation / send / body read), or a status code arrived
together with the JSON-decoding outcome of the body for the expected shape. -/
inductive Upstream (α : Type) where
  | transportFail
  | status (code : Nat) (decoded : Option α)
  deriving Repr, DecidableEq

/-- The whole upstream world a single query runs against. -/
structure Env where
  /-- `GET /eth/v1/beacon/headers`: the `data[].header.message.slot` strings. -/
  headers : Upstream (List String)
  /-- `GET /eth/v2/beacon/blocks/{slot}`: the execution payload block hash. -/
  blockDetail : Upstream String
  /-- `eth_getBlockByHash` through the RPC client. -/
  blockByHash : Except Unit Block
  /-- `GET /eth/v1/beacon/states/{slot}/sync_committees`: validator indexes. -/
  syncCommittees : Upstream (List String)
  /-- `GET /eth/v1/beacon/states/{slot}/validators?id=...`: pubkeys. -/
  validatorsDetail : Upstream (List String)

/-! ## REST plumbing (client.go lines 113-151) -/

/-- `sendAPIRequest` (client.go 113-151): transport failure is returned as-is;
an upstream 404 becomes `FutureSlotError{"Slot is in the future"}`; an
upstream 400 becomes `SlotMissingError{"Slot is not found"}`; then the body is
JSON-decoded, a failure of which is returned as a decode error. -/
def sendAPIRequest {α : Type} (u : Upstream α) : Except GoError α :=
  match u with
  | .transportFail => .error .transportErr
  | .status code decoded =>
    if code = 404 then .error (.futureSlot "Slot is in the future")
    else if code = 400 then .error (.slotMissing "Slot is not found")
    else
      match decoded with
      | none => .error .decodeErr
      | some v => .ok v

/-- `big.Int.SetString(s, 10)`: an optional sign followed by a non-empty
string of decimal digits. -/
def digitsToNat (l : List Char) : Option Nat :=
  if l ≠ [] ∧ l.all (fun c => '0' ≤ c ∧ c ≤ '9') then
    some (l.foldl (fun a c => 10 * a + (c.toNat - 48)) 0)
  else none

/-- The slot-string parse `new(big.Int).SetString(slotId, 10)`
(client.go 212). -/
def bigIntSetString (s : String) : Option Int :=
  match s.data with
  | [] => none
  | '+' :: rest => (digitsToNat rest).map (fun n => (n : Int))
  | '-' :: rest => (digitsToNat rest).map (fun n => -(n : Int))
  | l => (digitsToNat l).map (fun n => (n : Int))

/-- `BlocksAvailableAfterSlot` (client.go 22). -/
def blocksAvailableAfterSlot : Int := 4700012

/-- `getCurrentSlotId` (client.go 197-209).  `none` models the Go panic at
`header.Data[0]` when the decoded data list is empty; every handled failure
(transport, status mapping, decode, slot-string parse) yields `some 0`. -/
def getCurrentSlotId (env : Env) : Option Int :=
  match sendAPIRequest env.headers with
  | .error _ => some 0
  | .ok slots =>
    match slots with
    | [] => none
    | s :: _ =>
      match bigIntSetString s with
      | none => some 0
      | some n => some n

/-! ## The reward query (client.go 211-254) -/

/-- One iteration of the transaction loop (client.go 236-248): pick the
receipt-based cost/price when the receipt fetch succeeded, the declared
cost/price otherwise; flip the status to `"mev"` when the price strictly
exceeds `3 * baseFee`; accumulate the cost. -/
def processTx (baseFee : Int) (acc : Int × String) (tx : Tx) : Int × String :=
  let cost := match tx.receiptOutcome with
    | some r => r.effectiveGasPrice * int64OfUInt64 r.gasUsed
    | none => txCost tx
  let gasPrice := match tx.receiptOutcome with
    | some r => r.effectiveGasPrice
    | none => tx.gasPrice
  let st := if baseFee * 3 < gasPrice then "mev" else acc.2
  (acc.1 + cost, st)

/-- The cost contribution of one transaction, receipt-authoritative with
declared-cost fallback. -/
def costOf (tx : Tx) : Int :=
  match tx.receiptOutcome with
  | some r => r.effectiveGasPrice * int64OfUInt64 r.gasUsed
  | none => txCost tx

/-- The price a transaction is classified by, receipt-authoritative with
declared-price fallback. -/
def priceOf (tx : Tx) : Int :=
  match tx.receiptOutcome with
  | some r => r.effectiveGasPrice
  | none => tx.gasPrice

/-- Whether one transaction triggers the MEV classification. -/
def mevTx (baseFee : Int) (tx : Tx) : Bool := baseFee * 3 < priceOf tx

/-- The net reward of a block in wei: accumulated costs minus
`baseFee * int64(gasUsed)`. -/
def rewardWei (b : Block) : Int :=
  (b.txs.map costOf).sum - b.baseFee * int64OfUInt64 b.gasUsed

/-- The final classification of a block. -/
def statusOf (b : Block) : String :=
  if b.txs.any (mevTx b.baseFee) then "mev" else "vanilla"

/-- `GetBlockRewardAndStatusBySlot` (client.go 211-254).  The outer `Option`
models the Go panic that `getCurrentSlotId` can raise (`none`); the `Except`
carries the returned error. -/
def getBlockRewardAndStatusBySlot (env : Env) (slotId : String) :
    Option (Except GoError (String × String)) :=
  match bigIntSetString slotId with
  | none => some (.error (.parseErr "can not convert slotId to bigInt"))
  | some s =>
    if s ≤ blocksAvailableAfterSlot then
      some (.error (.slotMissing "Slot is missing"))
    else
      match getCurrentSlotId env with
      | none => none
      | some cur =>
        if cur < s then some (.error (.futureSlot "Slot is in the future"))
        else
          match sendAPIRequest env.blockDetail with
          | .error e => some (.error e)
          | .ok _blockHash =>
            match env.blockByHash with
            | .error _ => some (.error .rpcErr)
            | .ok b =>
              let burntFees := b.baseFee * int64OfUInt64 b.gasUsed
              let folded := b.txs.foldl (processTx b.baseFee) (0, "vanilla")
              some (.ok (goFloatText9 (folded.1 - burntFees), folded.2))

/-! ## The duty query (client.go 164-195, 256-267) -/

/-- `getSyncCommitteesValidatorIndexes` (client.go 164-172). -/
def getSyncCommitteesValidatorIndexes (env : Env) : Except GoError (List String) :=
  sendAPIRequest env.syncCommittees

/-- `getPubKeysOfSyncCommittees` (client.go 174-195): the decoded validator
details, one pubkey each, in response order. -/
def getPubKeysOfSyncCommittees (env : Env) : Except GoError (List String) :=
  sendAPIRequest env.validatorsDetail

/-- `GetSyncCommitteeDuties` (client.go 256-267): chain the two lookups; note
that no slot parsing, floor check or head check happens on this path. -/
def getSyncCommitteeDuties (env : Env) (_slotId : String) :
    Except GoError (List String) :=
  match getSyncCommitteesValidatorIndexes env with
  | .error e => .error e
  | .ok _indexes =>
    match getPubKeysOfSyncCommittees env with
    | .error e => .error e
    | .ok pubKeys => .ok pubKeys

/-! ## HTTP layer (main.go 112-165) -/

/-- The JSON body a handler writes. -/
inductive Body where
  | rewardStatus (reward status : String)
  | errObj (msg : String)
  | pubkeys (ks : List String)
  | null
  deriving Repr, DecidableEq

/-- An HTTP response of the service. -/
structure HttpOut where
  status : Nat
  body : Body
  deriving Repr, DecidableEq

/-- `GetBlockRewardHandler` (main.go 112-139): `SlotMissingError` to 404 with
the error message, `FutureSlotError` to 400 with the error message, any other
error to 500 with no payload; a panic is turned into a bare 500 by the
`gin.Default()` recovery middleware. -/
def getBlockRewardHandler (env : Env) (slotId : String) : HttpOut :=
  match getBlockRewardAndStatusBySlot env slotId with
  | none => ⟨500, .null⟩
  | some (.error (.slotMissing m)) => ⟨404, .errObj m⟩
  | some (.error (.futureSlot m)) => ⟨400, .errObj m⟩
  | some (.error _) => ⟨500, .null⟩
  | some (.ok (r, st)) => ⟨200, .rewardStatus r st⟩

/-- `GetSyncDutiesHandler` (main.go 141-165). -/
def getSyncDutiesHandler (env : Env) (slotId : String) : HttpOut :=
  match getSyncCommitteeDuties env slotId with
  | .error (.slotMissing m) => ⟨404, .errObj m⟩
  | .error (.futureSlot m) => ⟨400, .errObj m⟩
  | .error _ => ⟨500, .null⟩
  | .ok ks => ⟨200, .pubkeys ks⟩

/-! ## Rate-limited transport (client.go 100-111) -/

/-- A cancellation context, reduced to the one observable the limiter wait
reacts to: whether it has been cancelled. -/
structure Ctx where
  cancelled : Bool
  deriving Repr, DecidableEq

/-- `context.Background()`: never cancelled. -/
def backgroundCtx : Ctx := ⟨false⟩

/-- `rate.Limiter.Wait(ctx)` as far as cancellation is concerned: it returns
the cancellation error exactly when the supplied context is cancelled while
blocked; otherwise it eventually admits the request. -/
def limiterWait (ctx : Ctx) : Except GoError Unit :=
  if ctx.cancelled then .error .transportErr else .ok ()

/-- `rateLimitTransport.RoundTrip` (client.go 105-111): the wait is performed
on `context.Background()` — not on the inbound request context `callerCtx` —
and only then is the inner transport invoked. -/
def roundTrip (_callerCtx : Ctx) (transport : Except GoError Unit) :
    Except GoError Unit :=
  match limiterWait backgroundCtx with
  | .error e => .error e
  | .ok _ => transport

/-! ## Concrete fixtures used to instantiate and to refute claims -/

/-- Whether a duty-query outcome is a `SlotMissingError` (of any message). -/
def isSlotMissingResult : Except GoError (List String) → Bool
  | .error (.slotMissing _) => true
  | _ => false

/-- A healthy current-head response: head slot 4700500. -/
def stdHeaders : Upstream (List String) := .status 200 (some ["4700500"])

/-- A fully healthy upstream serving the given block. -/
def mkEnv (b : Block) : Env :=
  { headers := stdHeaders
    blockDetail := .status 200 (some "0xabc")
    blockByHash := .ok b
    syncCommittees := .status 200 (some ["1"])
    validatorsDetail := .status 200 (some ["0xkey"]) }

/-- A transaction whose receipt reports an effective price of
17200000000000000008 wei over 1 gas. -/
def bigRewardTx : Tx :=
  { gasPrice := 1, gas := 1, value := 0, isBlob := false,
    blobGasFeeCap := 0, blobGas := 0,
    receiptOutcome := some { effectiveGasPrice := 17200000000000000008, gasUsed := 1 } }

/-- A block whose net reward is 17200000000000000008 wei. -/
def bigRewardBlock : Block := { baseFee := 1, gasUsed := 0, txs := [bigRewardTx] }

/-- A transaction with a failed receipt fetch, declared price 1, gas limit 1
and transferred value 5. -/
def valueTx : Tx :=
  { gasPrice := 1, gas := 1, value := 5, isBlob := false,
    blobGasFeeCap := 0, blobGas := 0, receiptOutcome := none }

/-- A block containing only `valueTx`. -/
def valueBlock : Block := { baseFee := 1, gasUsed := 0, txs := [valueTx] }

/-- An empty block with a burnt fee of 17200000000000000008 wei. -/
def emptyBigBlock : Block :=
  { baseFee := 17200000000000000008, gasUsed := 1, txs := [] }

/-- An empty block with a small burnt fee. -/
def emptySmallBlock : Block := { baseFee := 7, gasUsed := 2, txs := [] }

/-- A receipt-successful transaction priced below the MEV threshold. -/
def vanillaTx1 : Tx :=
  { gasPrice := 1, gas := 1, value := 0, isBlob := false,
    blobGasFeeCap := 0, blobGas := 0,
    receiptOutcome := some { effectiveGasPrice := 1, gasUsed := 1 } }

/-- A receipt-successful transaction priced above the MEV threshold. -/
def mevTx1 : Tx :=
  { gasPrice := 1, gas := 1, value := 0, isBlob := false,
    blobGasFeeCap := 0, blobGas := 0,
    receiptOutcome := some { effectiveGasPrice := 5, gasUsed := 1 } }

/-- A two-transaction block used to exercise reordering. -/
def smallBlock : Block := { baseFee := 1, gasUsed := 0, txs := [vanillaTx1, mevTx1] }

/-- The same block with its transactions swapped. -/
def smallBlockSwapped : Block := { baseFee := 1, gasUsed := 0, txs := [mevTx1, vanillaTx1] }

/-- An upstream whose sync-committees endpoint answers 400. -/
def duty400Env : Env :=
  { headers := stdHeaders
    blockDetail := .status 200 (some "0xabc")
    blockByHash := .error ()
    syncCommittees := .status 400 (some [])
    validatorsDetail := .status 200 (some ["0xkey"]) }

/-- A headers response that decodes to an empty `data` list. -/
def emptyHeadersEnv : Env :=
  { headers := .status 200 (some [])
    blockDetail := .status 200 (some "0xabc")
    blockByHash := .error ()
    syncCommittees := .status 200 (some ["1"])
    validatorsDetail := .status 200 (some ["0xkey"]) }

/-- A headers response whose slot string does not parse. -/
def badSlotHeadersEnv : Env :=
  { emptyHeadersEnv with headers := .status 200 (some ["abc"]) }

/-- A headers fetch that fails at the transport level. -/
def transportFailHeadersEnv : Env :=
  { emptyHeadersEnv with headers := .transportFail }

/-- A headers response whose body does not decode. -/
def badJsonHeadersEnv : Env :=
  { emptyHeadersEnv with headers := .status 200 none }

/-! ## Arithmetic facts about the rounding model -/

theorem nbitsGo_zero (f : Nat) : nbitsGo f 0 = 0 := by
  cases f <;> simp [nbitsGo]

theorem nbitsGo_bounds (f : Nat) :
    ∀ n, 0 < n → n < 2 ^ f →
      2 ^ (nbitsGo f n - 1) ≤ n ∧ n < 2 ^ (nbitsGo f n) := by
  induction f with
  | zero => intro n h1 h2; simp at h2; omega
  | succ f ih =>
    intro n h1 h2
    have hne : ¬ n = 0 := by omega
    rw [show nbitsGo (f + 1) n = nbitsGo f (n / 2) + 1 by
      simp [nbitsGo, hne]]
    by_cases hn2 : n / 2 = 0
    · have hn1 : n = 1 := by omega
      rw [hn2, nbitsGo_zero]
      simp [hn1]
    · have hpos : 0 < n / 2 := by omega
      have hpow : (2:Nat) ^ (f + 1) = 2 * 2 ^ f := by rw [pow_succ]; ring
      have hlt : n / 2 < 2 ^ f := by omega
      obtain ⟨hb1, hb2⟩ := ih (n / 2) hpos hlt
      have hbpos : 0 < nbitsGo f (n / 2) := by
        by_contra hc
        have : nbitsGo f (n / 2) = 0 := by omega
        rw [this] at hb2
        simp at hb2
        omega
      obtain ⟨c, hc⟩ : ∃ c, nbitsGo f (n / 2) = c + 1 := ⟨_, (Nat.succ_pred_eq_of_pos hbpos).symm⟩
      rw [hc] at hb1 hb2 ⊢
      simp only [Nat.add_sub_cancel] at hb1 ⊢
      have e1 : (2:Nat) ^ (c + 1) = 2 * 2 ^ c := by rw [pow_succ]; ring
      have e2 : (2:Nat) ^ (c + 1 + 1) = 2 * 2 ^ (c + 1) := by rw [pow_succ (2:Nat) (c+1)]; ring
      constructor
      · omega
      · omega

theorem nbits_bounds (n : Nat) (h1 : 0 < n) (h2 : n < 2 ^ 4096) :
    2 ^ (nbits n - 1) ≤ n ∧ n < 2 ^ (nbits n) :=
  nbitsGo_bounds 4096 n h1 h2

theorem rne_mul_bounds (a b : Nat) (hb : 0 < b) :
    2 * (rne a b * b) ≤ 2 * a + b ∧ 2 * a ≤ 2 * (rne a b * b) + b := by
  have hdm : b * (a / b) + a % b = a := Nat.div_add_mod a b
  have hr : a % b < b := Nat.mod_lt _ hb
  have hcomm : a / b * b = b * (a / b) := Nat.mul_comm _ _
  have hsucc : (a / b + 1) * b = b * (a / b) + b := by ring
  unfold rne
  split_ifs with h1 h2 h3 <;> omega

theorem rne_eq_of_near (a b q : Nat) (hb : 0 < b)
    (h1 : 2 * (q * b) < 2 * a + b) (h2 : 2 * a < 2 * (q * b) + b) :
    rne a b = q := by
  have hdm : b * (a / b) + a % b = a := Nat.div_add_mod a b
  have hr : a % b < b := Nat.mod_lt _ hb
  -- `q` can be neither below `a / b` nor above `a / b + 1`
  have hup : a / b ≤ q := by
    by_contra hc
    push_neg at hc
    have hq1 : q + 1 ≤ a / b := hc
    have : (q + 1) * b ≤ (a / b) * b := Nat.mul_le_mul_right b hq1
    have hcomm : a / b * b = b * (a / b) := Nat.mul_comm _ _
    have hexp : (q + 1) * b = q * b + b := by ring
    omega
  have hdown : q ≤ a / b + 1 := by
    by_contra hc
    push_neg at hc
    have hq1 : a / b + 2 ≤ q := hc
    have : (a / b + 2) * b ≤ q * b := Nat.mul_le_mul_right b hq1
    have hexp : (a / b + 2) * b = b * (a / b) + 2 * b := by ring
    omega
  have hcomm : a / b * b = b * (a / b) := Nat.mul_comm _ _
  have hsucc : (a / b + 1) * b = b * (a / b) + b := by ring
  rcases (by omega : q = a / b ∨ q = a / b + 1) with hq | hq
  · subst hq
    unfold rne
    split_ifs with t1 t2 t3 <;> omega
  · subst hq
    unfold rne
    split_ifs with t1 t2 t3 <;> omega

theorem nbits_le_62 (n : Nat) (h0 : 0 < n) (h62 : n < 2 ^ 62) : nbits n ≤ 62 := by
  have hpow : (2:Nat) ^ 62 < 2 ^ 4096 := Nat.pow_lt_pow_right Nat.one_lt_two (by norm_num)
  obtain ⟨hb1, _⟩ := nbits_bounds n h0 (lt_trans h62 hpow)
  by_contra hc
  push_neg at hc
  have h63 : 62 ≤ nbits n - 1 := by omega
  have : (2:Nat) ^ 62 ≤ 2 ^ (nbits n - 1) := Nat.pow_le_pow_right (by norm_num) h63
  omega

theorem tExp_eq (k : Nat) :
    tExp k = if k * 2 ^ (floatPrec k + 29 - nbits k + 1) < 10 ^ 9 * 2 ^ (floatPrec k)
      then floatPrec k + 29 - nbits k + 1 else floatPrec k + 29 - nbits k := rfl

theorem tExp_lower (k : Nat) (h0 : 0 < k) (h62 : k < 2 ^ 62) :
    10 ^ 9 * 2 ^ 63 ≤ k * 2 ^ tExp k := by
  have hnb : nbits k ≤ 62 := nbits_le_62 k h0 h62
  have hnb1 : 0 < nbits k := by
    by_contra hc
    have hz : nbits k = 0 := by omega
    have hpow : (2:Nat) ^ 62 < 2 ^ 4096 := Nat.pow_lt_pow_right Nat.one_lt_two (by norm_num)
    obtain ⟨_, hb2⟩ := nbits_bounds k h0 (lt_trans h62 hpow)
    rw [hz] at hb2
    simp at hb2
    omega
  have hp : floatPrec k = 64 := by
    unfold floatPrec
    omega
  have hpow : (2:Nat) ^ 62 < 2 ^ 4096 := Nat.pow_lt_pow_right Nat.one_lt_two (by norm_num)
  obtain ⟨hb1, hb2⟩ := nbits_bounds k h0 (lt_trans h62 hpow)
  rw [tExp_eq, hp]
  split_ifs with hcond
  · -- bumped exponent: k * 2 ^ (94 - nbits k) ≥ 2 ^ 93 ≥ 10^9 * 2^63
    have he : nbits k - 1 + (64 + 29 - nbits k + 1) = 93 := by omega
    have hmul : 2 ^ (nbits k - 1) * 2 ^ (64 + 29 - nbits k + 1) ≤
        k * 2 ^ (64 + 29 - nbits k + 1) :=
      Nat.mul_le_mul_right _ hb1
    rw [← pow_add, he] at hmul
    have h93 : 10 ^ 9 * 2 ^ 63 ≤ (2:Nat) ^ 93 := by norm_num
    omega
  · -- not bumped: from ¬(k * 2^(t0+1) < 10^9 * 2^64), halve both sides
    push_neg at hcond
    have hs : k * 2 ^ (64 + 29 - nbits k + 1) = 2 * (k * 2 ^ (64 + 29 - nbits k)) := by
      rw [pow_succ]
      ring
    have h64 : (10:Nat) ^ 9 * 2 ^ 64 = 2 * (10 ^ 9 * 2 ^ 63) := by norm_num
    omega

theorem tExp_gwei_lt (k : Nat) (h0 : 0 < k) (h62 : k < 2 ^ 62) :
    10 ^ 9 < 2 ^ tExp k := by
  have hlo := tExp_lower k h0 h62
  have hkt : k * 2 ^ tExp k < 2 ^ 62 * 2 ^ tExp k :=
    (Nat.mul_lt_mul_right (Nat.pos_pow_of_pos _ (by norm_num))).mpr h62
  have hsplit : (10:Nat) ^ 9 * 2 ^ 63 = 2 ^ 62 * (2 * 10 ^ 9) := by norm_num
  have : 2 ^ 62 * (2 * 10 ^ 9) < 2 ^ 62 * 2 ^ tExp k := by omega
  have h2 : 2 * 10 ^ 9 < 2 ^ tExp k := Nat.lt_of_mul_lt_mul_left this
  omega

theorem goDigits_eq_self (k : Nat) (h0 : 0 < k) (h62 : k < 2 ^ 62) :
    goDigits k = k := by
  have ht : 10 ^ 9 < 2 ^ tExp k := tExp_gwei_lt k h0 h62
  have hgw : (0:Nat) < 10 ^ 9 := by norm_num
  obtain ⟨hA1, hA2⟩ := rne_mul_bounds (k * 2 ^ tExp k) (10 ^ 9) hgw
  show rne (rne (k * 2 ^ tExp k) (10 ^ 9) * 10 ^ 9) (2 ^ tExp k) = k
  exact rne_eq_of_near _ _ _ (Nat.pos_pow_of_pos _ (by norm_num))
    (by omega) (by omega)

theorem goFloatText9_exact (k : Int) (h : k.natAbs < 2 ^ 62) :
    goFloatText9 k = exactText9 k := by
  rcases lt_trichotomy k 0 with hk | hk | hk
  · have hne : ¬ k = 0 := by omega
    have hnp : ¬ 0 < k := by omega
    have habs : (-k).toNat = k.natAbs := by omega
    rw [goFloatText9, exactText9, if_neg hne, if_neg hnp, if_pos hk, habs,
      goDigits_eq_self k.natAbs (by omega) h]
  · subst hk
    decide
  · have hne : ¬ k = 0 := by omega
    have hnn : ¬ k < 0 := by omega
    have habs : k.toNat = k.natAbs := by omega
    rw [goFloatText9, exactText9, if_neg hne, if_pos hk, if_neg hnn, habs,
      goDigits_eq_self k.natAbs (by omega) h]

/-! ## Shape of the rendered string -/

theorem digitChar_isDigit (m : Nat) (h : m < 10) : (Nat.digitChar m).isDigit = true := by
  interval_cases m <;> decide

theorem pad9_length (n : Nat) : (pad9 n).length = 9 := by
  simp [pad9, String.length]

theorem pad9_all_digit (n : Nat) : (pad9 n).data.all Char.isDigit = true := by
  rw [List.all_eq_true]
  intro c hc
  simp only [pad9] at hc
  obtain ⟨i, _, hi⟩ := List.mem_map.mp hc
  rw [← hi]
  exact digitChar_isDigit _ (Nat.mod_lt _ (by norm_num))

theorem natDecDigits_all_digit (f : Nat) :
    ∀ n c, c ∈ natDecDigits f n → c.isDigit = true := by
  induction f with
  | zero => intro n c hc; simp [natDecDigits] at hc
  | succ f ih =>
    intro n c hc
    rw [natDecDigits] at hc
    split_ifs at hc with h10
    · simp at hc
      rw [hc]
      exact digitChar_isDigit _ h10
    · rcases List.mem_append.mp hc with h | h
      · exact ih _ _ h
      · simp at h
        rw [h]
        exact digitChar_isDigit _ (Nat.mod_lt _ (by norm_num))

theorem natDecDigits_ne_nil (f n : Nat) (hf : 0 < f) : natDecDigits f n ≠ [] := by
  obtain ⟨g, rfl⟩ : ∃ g, f = g + 1 := ⟨f - 1, by omega⟩
  rw [natDecDigits]
  split_ifs <;> simp

/-- The property the spec calls "rendered with exactly 9 decimal digits":
everything after a decimal point, which is 9 digit characters. -/
def nineFracDigits (s : String) : Prop :=
  ∃ ip fp : String, s = ip ++ "." ++ fp ∧ fp.length = 9 ∧ fp.data.all Char.isDigit = true

theorem renderDigits_nineFrac (d : Nat) : nineFracDigits (renderDigits d) :=
  ⟨natDecString (d / 10 ^ 9), pad9 (d % 10 ^ 9), rfl, pad9_length _, pad9_all_digit _⟩

theorem strAppend_assoc (a b c : String) : a ++ b ++ c = a ++ (b ++ c) := by
  apply String.ext
  simp

theorem goFloatText9_nineFrac (k : Int) : nineFracDigits (goFloatText9 k) := by
  rw [goFloatText9]
  split_ifs with h1 h2
  · exact ⟨"0", "000000000", by decide, by decide, by decide⟩
  · exact renderDigits_nineFrac _
  · obtain ⟨ip, fp, he, hl, hd⟩ := renderDigits_nineFrac (goDigits (-k).toNat)
    refine ⟨"-" ++ ip, fp, ?_, hl, hd⟩
    rw [he, strAppend_assoc, strAppend_assoc, strAppend_assoc]

theorem goFloatText9_neg_sign (k : Int) (h : k < 0) :
    ∃ s, goFloatText9 k = "-" ++ s := by
  rw [goFloatText9, if_neg (by omega : ¬ k = 0), if_neg (by omega : ¬ 0 < k)]
  exact ⟨_, rfl⟩

theorem goFloatText9_nonneg_no_sign (k : Int) (h : 0 ≤ k) :
    ∀ s, goFloatText9 k ≠ "-" ++ s := by
  intro s hc
  rw [goFloatText9] at hc
  split_ifs at hc with h1 h2
  · have := congrArg String.data hc
    simp [String.data_append] at this
  · have := congrArg String.data hc
    rw [renderDigits] at this
    simp only [String.data_append] at this
    have hne := natDecDigits_ne_nil 1300 (goDigits k.toNat / 10 ^ 9) (by norm_num)
    rcases hd : natDecDigits 1300 (goDigits k.toNat / 10 ^ 9) with _ | ⟨c, t⟩
    · exact hne hd
    · have hcd : c.isDigit = true :=
        natDecDigits_all_digit 1300 _ c (by rw [hd]; exact List.mem_cons_self _ _)
      rw [natDecString, hd] at this
      simp at this
      obtain ⟨hcc, -⟩ := this
      rw [hcc] at hcd
      simp at hcd
  · omega

/-! ## The transaction fold as a sum and a disjunction -/

theorem processTx_step (bf : Int) (c : Int) (st : String) (t : Tx) :
    processTx bf (c, st) t = (c + costOf t, if mevTx bf t then "mev" else st) := by
  rcases h : t.receiptOutcome with _ | r <;>
    simp [processTx, costOf, priceOf, mevTx, h]

theorem foldl_processTx (bf : Int) :
    ∀ (txs : List Tx) (c : Int) (st : String),
      txs.foldl (processTx bf) (c, st) =
        (c + (txs.map costOf).sum, if txs.any (mevTx bf) then "mev" else st) := by
  intro txs
  induction txs with
  | nil => intro c st; simp
  | cons t rest ih =>
    intro c st
    rw [List.foldl_cons, List.map_cons, List.sum_cons, List.any_cons,
      processTx_step, ih]
    rcases hmt : mevTx bf t <;> rcases hmr : rest.any (mevTx bf) <;>
      simp [hmt, hmr, add_assoc]

theorem foldl_processTx_sticky (bf : Int) :
    ∀ (txs : List Tx) (c : Int),
      (txs.foldl (processTx bf) (c, "mev")).2 = "mev" := by
  intro txs c
  rw [foldl_processTx]
  split_ifs <;> rfl

/-! ## Outcome analysis of the queries -/

theorem sendAPIRequest_cases {α : Type} (u : Upstream α) :
    (∃ v, sendAPIRequest u = .ok v) ∨
    sendAPIRequest u = .error .transportErr ∨
    sendAPIRequest u = .error .decodeErr ∨
    sendAPIRequest u = .error (.futureSlot "Slot is in the future") ∨
    sendAPIRequest u = .error (.slotMissing "Slot is not found") := by
  rcases u with _ | ⟨code, dec⟩
  · right; left; rfl
  · rcases dec with _ | v <;> rw [sendAPIRequest] <;> split_ifs <;> tauto

theorem reward_query_success (env : Env) (slotId : String) (s cur : Int)
    (b : Block) (bh : String)
    (hparse : bigIntSetString slotId = some s)
    (hfloor : blocksAvailableAfterSlot < s)
    (hhead : getCurrentSlotId env = some cur)
    (hle : s ≤ cur)
    (hbd : sendAPIRequest env.blockDetail = .ok bh)
    (hbb : env.blockByHash = .ok b) :
    getBlockRewardAndStatusBySlot env slotId =
      some (.ok (goFloatText9 (rewardWei b), statusOf b)) := by
  rw [getBlockRewardAndStatusBySlot, hparse]
  simp only
  rw [if_neg (by omega : ¬ s ≤ blocksAvailableAfterSlot), hhead]
  simp only
  rw [if_neg (by omega : ¬ cur < s), hbd, hbb]
  simp only [foldl_processTx, rewardWei, statusOf, zero_add]

theorem reward_query_cases (env : Env) (slotId : String) :
    getBlockRewardAndStatusBySlot env slotId = none ∨
    (∃ r st, getBlockRewardAndStatusBySlot env slotId = some (.ok (r, st))) ∨
    getBlockRewardAndStatusBySlot env slotId =
      some (.error (.parseErr "can not convert slotId to bigInt")) ∨
    getBlockRewardAndStatusBySlot env slotId =
      some (.error (.slotMissing "Slot is missing")) ∨
    getBlockRewardAndStatusBySlot env slotId =
      some (.error (.slotMissing "Slot is not found")) ∨
    getBlockRewardAndStatusBySlot env slotId =
      some (.error (.futureSlot "Slot is in the future")) ∨
    getBlockRewardAndStatusBySlot env slotId = some (.error .decodeErr) ∨
    getBlockRewardAndStatusBySlot env slotId = some (.error .transportErr) ∨
    getBlockRewardAndStatusBySlot env slotId = some (.error .rpcErr) := by
  rw [getBlockRewardAndStatusBySlot]
  rcases hp : bigIntSetString slotId with _ | s
  · tauto
  · simp only
    split_ifs with h1
    · tauto
    · rcases hc : getCurrentSlotId env with _ | cur
      · tauto
      · simp only
        split_ifs with h2
        · tauto
        · rcases sendAPIRequest_cases env.blockDetail with ⟨v, hbd⟩ | hbd | hbd | hbd | hbd <;>
            rw [hbd]
          · rcases hb : env.blockByHash with e | b
            · tauto
            · simp only
              right
              left
              exact ⟨_, _, rfl⟩
          all_goals tauto

theorem duty_query_cases (env : Env) (slotId : String) :
    (∃ ks, getSyncCommitteeDuties env slotId = .ok ks) ∨
    getSyncCommitteeDuties env slotId = .error .transportErr ∨
    getSyncCommitteeDuties env slotId = .error .decodeErr ∨
    getSyncCommitteeDuties env slotId = .error (.futureSlot "Slot is in the future") ∨
    getSyncCommitteeDuties env slotId = .error (.slotMissing "Slot is not found") := by
  rw [getSyncCommitteeDuties, getSyncCommitteesValidatorIndexes,
    getPubKeysOfSyncCommittees]
  rcases sendAPIRequest_cases env.syncCommittees with ⟨v, hsc⟩ | hsc | hsc | hsc | hsc <;>
    rw [hsc] <;>
    [skip; tauto; tauto; tauto; tauto]
  rcases sendAPIRequest_cases env.validatorsDetail with ⟨w, hvd⟩ | hvd | hvd | hvd | hvd <;>
    rw [hvd] <;> tauto

theorem floor_reject (env : Env) (slotId : String) (s : Int)
    (hp : bigIntSetString slotId = some s) (hle : s ≤ blocksAvailableAfterSlot) :
    getBlockRewardAndStatusBySlot env slotId =
      some (.error (.slotMissing "Slot is missing")) := by
  rw [getBlockRewardAndStatusBySlot, hp]
  simp only
  rw [if_pos hle]

theorem future_reject (env : Env) (slotId : String) (s cur : Int)
    (hp : bigIntSetString slotId = some s) (hgt : blocksAvailableAfterSlot < s)
    (hc : getCurrentSlotId env = some cur) (hlt : cur < s) :
    getBlockRewardAndStatusBySlot env slotId =
      some (.error (.futureSlot "Slot is in the future")) := by
  rw [getBlockRewardAndStatusBySlot, hp]
  simp only
  rw [if_neg (by omega), hc]
  simp only
  rw [if_pos hlt]

/-! ## The claims -/

/-- Claim C4 (corrected: the duty query performs no floor check, see
`c4_counterexample`).  For every slot string parsing to `s`: if
`s ≤ blocksAvailableAfterSlot` the reward query fails with `SlotMissing`
uniformly in the upstream environment — i.e. before the current-head fetch —
and if `s` is above the floor but strictly greater than the fetched head
slot, it fails with `FutureSlot`. -/
theorem c4_slot_bounds :
    (∀ (env : Env) (slotId : String) (s : Int),
        bigIntSetString slotId = some s → s ≤ blocksAvailableAfterSlot →
        getBlockRewardAndStatusBySlot env slotId =
          some (.error (.slotMissing "Slot is missing"))) ∧
    (∀ (env : Env) (slotId : String) (s cur : Int),
        bigIntSetString slotId = some s → blocksAvailableAfterSlot < s →
        getCurrentSlotId env = some cur → cur < s →
        getBlockRewardAndStatusBySlot env slotId =
          some (.error (.futureSlot "Slot is in the future"))) :=
  ⟨floor_reject, future_reject⟩

/-- Witness for `c4_slot_bounds`: slot 5 is floor-rejected, slot
100000000000 is future-rejected, at a concrete healthy environment. -/
theorem c4_slot_bounds_witness :
    getBlockRewardAndStatusBySlot (mkEnv bigRewardBlock) "5" =
      some (.error (.slotMissing "Slot is missing")) ∧
    getBlockRewardAndStatusBySlot (mkEnv bigRewardBlock) "100000000000" =
      some (.error (.futureSlot "Slot is in the future")) :=
  ⟨c4_slot_bounds.1 (mkEnv bigRewardBlock) "5" 5 rfl (by decide),
   c4_slot_bounds.2 (mkEnv bigRewardBlock) "100000000000" 100000000000 4700500
     rfl (by decide) rfl (by decide)⟩

/-- Counterexample to claim C4 as stated: slot 1 is far below the floor, yet
the duty query does not fail with `SlotMissing` — it succeeds whenever the
upstream answers — because `GetSyncCommitteeDuties` never parses the slot nor
checks any bound. -/
theorem c4_counterexample :
    bigIntSetString "1" = some 1 ∧
    (1 : Int) ≤ blocksAvailableAfterSlot ∧
    getSyncCommitteeDuties (mkEnv bigRewardBlock) "1" = .ok ["0xkey"] ∧
    isSlotMissingResult (getSyncCommitteeDuties (mkEnv bigRewardBlock) "1") = false :=
  ⟨rfl, by decide, rfl, rfl⟩

/-- Claim C7 (code bug): `getCurrentSlotId` is meant never to fail fatally,
and indeed a transport failure, an undecodable body and an unparseable slot
string all yield `0` — but a successfully decoded response whose `data` list
is empty makes the Go code index `header.Data[0]` out of range and panic
(modelled as `none`), aborting the request instead of returning an
integer. -/
theorem c7_current_head_fetch :
    getCurrentSlotId emptyHeadersEnv = none ∧
    getCurrentSlotId badSlotHeadersEnv = some 0 ∧
    getCurrentSlotId transportFailHeadersEnv = some 0 ∧
    getCurrentSlotId badJsonHeadersEnv = some 0 :=
  ⟨rfl, rfl, rfl, rfl⟩

/-- Claim C8 (corrected): a slot string that is not an optionally signed
decimal literal makes the reward query fail with the generic parse error, for
every upstream environment — before any bound check or fetch.  But a negative
integer literal such as "-5" is parsed successfully by
`big.Int.SetString(..., 10)` and is then floor-rejected as `SlotMissing`,
not reported as a parse error as the claim states. -/
theorem c8_parse_behavior :
    (∀ (env : Env) (s : String), bigIntSetString s = none →
        getBlockRewardAndStatusBySlot env s =
          some (.error (.parseErr "can not convert slotId to bigInt"))) ∧
    (∀ (env : Env) (s : String) (n : Int), bigIntSetString s = some n → n < 0 →
        getBlockRewardAndStatusBySlot env s =
          some (.error (.slotMissing "Slot is missing"))) := by
  constructor
  · intro env s hp
    rw [getBlockRewardAndStatusBySlot, hp]
  · intro env s n hp hneg
    exact floor_reject env s n hp (by rw [blocksAvailableAfterSlot]; omega)

/-- Witness for `c8_parse_behavior`: "abc" is a parse error, "-5" is
floor-rejected. -/
theorem c8_parse_behavior_witness :
    getBlockRewardAndStatusBySlot (mkEnv bigRewardBlock) "abc" =
      some (.error (.parseErr "can not convert slotId to bigInt")) ∧
    getBlockRewardAndStatusBySlot (mkEnv bigRewardBlock) "-5" =
      some (.error (.slotMissing "Slot is missing")) :=
  ⟨c8_parse_behavior.1 (mkEnv bigRewardBlock) "abc" rfl,
   c8_parse_behavior.2 (mkEnv bigRewardBlock) "-5" (-5) rfl (by decide)⟩

/-- Counterexample to claim C8 as stated: the negative literal "-5" does not
produce a generic parse error — it parses and is rejected as
`SlotMissing`. -/
theorem c8_counterexample :
    bigIntSetString "-5" = some (-5) ∧
    getBlockRewardAndStatusBySlot (mkEnv bigRewardBlock) "-5" =
      some (.error (.slotMissing "Slot is missing")) ∧
    GoError.slotMissing "Slot is missing" ≠
      GoError.parseErr "can not convert slotId to bigInt" :=
  ⟨rfl, rfl, by decide⟩

/-- Claim C9 (corrected): the rate-limiter wait in
`rateLimitTransport.RoundTrip` is performed on `context.Background()`, which
is never cancelled, so the call's outcome is independent of the inbound
caller's context; a cancelled context would fail the wait had it been the one
passed. -/
theorem c9_wait_ignores_caller_context :
    (∀ (ctx : Ctx) (transport : Except GoError Unit),
        roundTrip ctx transport = transport) ∧
    limiterWait backgroundCtx = .ok () ∧
    (∀ ctx : Ctx, ctx.cancelled = true → limiterWait ctx = .error .transportErr) := by
  refine ⟨fun ctx t => rfl, rfl, fun ctx h => ?_⟩
  simp [limiterWait, h]

/-- Witness for `c9_wait_ignores_caller_context` at a cancelled context. -/
theorem c9_wait_ignores_caller_context_witness :
    roundTrip ⟨true⟩ (.ok ()) = .ok () ∧
    limiterWait ⟨true⟩ = .error .transportErr :=
  ⟨c9_wait_ignores_caller_context.1 ⟨true⟩ (.ok ()),
   c9_wait_ignores_caller_context.2.2 ⟨true⟩ rfl⟩

/-- Counterexample to claim C9 as stated: a call through the transport whose
caller context is already cancelled still succeeds — it is not aborted with a
cancellation error, because the wait never sees that context. -/
theorem c9_counterexample :
    Ctx.cancelled ⟨true⟩ = true ∧
    roundTrip ⟨true⟩ (.ok ()) = .ok () ∧
    (Except.ok () : Except GoError Unit) ≠ .error .transportErr :=
  ⟨rfl, rfl, fun h => Except.noConfusion h⟩

theorem perm_any {α : Type} {l l' : List α} (h : l.Perm l') (p : α → Bool) :
    l.any p = l'.any p := by
  cases hx : l.any p <;> cases hy : l'.any p <;> try rfl
  · rw [List.any_eq_false] at hx
    rw [List.any_eq_true] at hy
    obtain ⟨x, hmem, hp⟩ := hy
    exact absurd hp (by simp [hx x (h.mem_iff.mpr hmem)])
  · rw [List.any_eq_false] at hy
    rw [List.any_eq_true] at hx
    obtain ⟨x, hmem, hp⟩ := hx
    exact absurd hp (by simp [hy x (h.mem_iff.mp hmem)])

/-- Claim C1 (corrected: the rendering is the `big.Float` double rounding and
can differ from the exact quotient, see `c1_counterexample`).  For every
resolved block the reward query returns the 9-decimal rendering of
`reward / 10^9` computed in binary floating point at significand precision
`max 64 (bitlen reward)`; whenever `|reward| < 2^62` wei this is exactly
`(totalCost - baseFee * gasUsed) / 10^9` rendered with 9 decimal digits; the
string always carries exactly 9 digits after the decimal point and the sign,
and a negative or zero reward is returned normally, not as an error. -/
theorem c1_reward_rendering (env : Env) (slotId : String) (s cur : Int)
    (b : Block) (bh : String)
    (hparse : bigIntSetString slotId = some s)
    (hfloor : blocksAvailableAfterSlot < s)
    (hhead : getCurrentSlotId env = some cur)
    (hle : s ≤ cur)
    (hbd : sendAPIRequest env.blockDetail = .ok bh)
    (hbb : env.blockByHash = .ok b) :
    getBlockRewardAndStatusBySlot env slotId =
      some (.ok (goFloatText9 (rewardWei b), statusOf b)) ∧
    ((rewardWei b).natAbs < 2 ^ 62 →
      goFloatText9 (rewardWei b) = exactText9 (rewardWei b)) ∧
    nineFracDigits (goFloatText9 (rewardWei b)) ∧
    (rewardWei b < 0 → ∃ str, goFloatText9 (rewardWei b) = "-" ++ str) ∧
    (0 ≤ rewardWei b → ∀ str, goFloatText9 (rewardWei b) ≠ "-" ++ str) :=
  ⟨reward_query_success env slotId s cur b bh hparse hfloor hhead hle hbd hbb,
   goFloatText9_exact _, goFloatText9_nineFrac _, goFloatText9_neg_sign _,
   goFloatText9_nonneg_no_sign _⟩

/-- Witness for `c1_reward_rendering` at a concrete healthy environment. -/
theorem c1_reward_rendering_witness :
    getBlockRewardAndStatusBySlot (mkEnv bigRewardBlock) "4700013" =
      some (.ok (goFloatText9 (rewardWei bigRewardBlock), statusOf bigRewardBlock)) ∧
    ((rewardWei bigRewardBlock).natAbs < 2 ^ 62 →
      goFloatText9 (rewardWei bigRewardBlock) = exactText9 (rewardWei bigRewardBlock)) ∧
    nineFracDigits (goFloatText9 (rewardWei bigRewardBlock)) ∧
    (rewardWei bigRewardBlock < 0 →
      ∃ str, goFloatText9 (rewardWei bigRewardBlock) = "-" ++ str) ∧
    (0 ≤ rewardWei bigRewardBlock →
      ∀ str, goFloatText9 (rewardWei bigRewardBlock) ≠ "-" ++ str) :=
  c1_reward_rendering (mkEnv bigRewardBlock) "4700013" 4700013 4700500
    bigRewardBlock "0xabc" rfl (by decide) rfl (by decide) rfl rfl

/-- Counterexample to claim C1 as stated: at net reward
17200000000000000008 wei the query renders "17200000000.000000007" — the
64-bit binary rounding of the quotient moves the last decimal digit — while
the exact value of `reward / 10^9` with 9 decimal digits is
"17200000000.000000008". -/
theorem c1_counterexample :
    getBlockRewardAndStatusBySlot (mkEnv bigRewardBlock) "4700013" =
      some (.ok ("17200000000.000000007", "mev")) ∧
    rewardWei bigRewardBlock = 17200000000000000008 ∧
    exactText9 17200000000000000008 = "17200000000.000000008" ∧
    "17200000000.000000007" ≠ "17200000000.000000008" :=
  ⟨rfl, rfl, rfl, by decide⟩

/-- Claim C2 (confirmed): the classification returned for a resolved block is
"mev" exactly when some transaction's price — effective when its receipt
fetch succeeded, declared otherwise — strictly exceeds `3 * baseFee`, and
"vanilla" otherwise; no other value occurs, and the flag is sticky: a fold
started at "mev" ends at "mev" whatever the transactions. -/
theorem c2_mev_classification (env : Env) (slotId : String) (s cur : Int)
    (b : Block) (bh : String)
    (hparse : bigIntSetString slotId = some s)
    (hfloor : blocksAvailableAfterSlot < s)
    (hhead : getCurrentSlotId env = some cur)
    (hle : s ≤ cur)
    (hbd : sendAPIRequest env.blockDetail = .ok bh)
    (hbb : env.blockByHash = .ok b) :
    getBlockRewardAndStatusBySlot env slotId =
      some (.ok (goFloatText9 (rewardWei b), statusOf b)) ∧
    (statusOf b = "mev" ↔ b.txs.any (mevTx b.baseFee) = true) ∧
    (statusOf b = "mev" ∨ statusOf b = "vanilla") ∧
    (∀ t : Tx, mevTx b.baseFee t = true ↔ b.baseFee * 3 < priceOf t) ∧
    (∀ (txs : List Tx) (c : Int),
      (txs.foldl (processTx b.baseFee) (c, "mev")).2 = "mev") := by
  refine ⟨reward_query_success env slotId s cur b bh hparse hfloor hhead hle hbd hbb,
    ?_, ?_, ?_, fun txs c => foldl_processTx_sticky b.baseFee txs c⟩
  · rw [statusOf]
    split_ifs with h <;> simp [h]
  · rw [statusOf]
    split_ifs <;> tauto
  · intro t
    rw [mevTx]
    simp [decide_eq_true_eq]

/-- Witness for `c2_mev_classification` at a concrete healthy environment. -/
theorem c2_mev_classification_witness :
    getBlockRewardAndStatusBySlot (mkEnv smallBlock) "4700013" =
      some (.ok (goFloatText9 (rewardWei smallBlock), statusOf smallBlock)) ∧
    (statusOf smallBlock = "mev" ↔ smallBlock.txs.any (mevTx smallBlock.baseFee) = true) ∧
    (statusOf smallBlock = "mev" ∨ statusOf smallBlock = "vanilla") ∧
    (∀ t : Tx, mevTx smallBlock.baseFee t = true ↔ smallBlock.baseFee * 3 < priceOf t) ∧
    (∀ (txs : List Tx) (c : Int),
      (txs.foldl (processTx smallBlock.baseFee) (c, "mev")).2 = "mev") :=
  c2_mev_classification (mkEnv smallBlock) "4700013" 4700013 4700500
    smallBlock "0xabc" rfl (by decide) rfl (by decide) rfl rfl

/-- Claim C3 (corrected: the fallback cost is go-ethereum's `tx.Cost()`,
which also adds the transferred value and, for blob transactions, the blob
fee — not merely declared gas price × gas limit; see `c3_counterexample`).
For every resolved block the reward query always produces a result, with
cost and price taken from the receipt exactly for the transactions whose
receipt fetch succeeded and from the declared transaction fields for exactly
the others. -/
theorem c3_receipt_fallback (env : Env) (slotId : String) (s cur : Int)
    (b : Block) (bh : String)
    (hparse : bigIntSetString slotId = some s)
    (hfloor : blocksAvailableAfterSlot < s)
    (hhead : getCurrentSlotId env = some cur)
    (hle : s ≤ cur)
    (hbd : sendAPIRequest env.blockDetail = .ok bh)
    (hbb : env.blockByHash = .ok b) :
    getBlockRewardAndStatusBySlot env slotId =
      some (.ok (goFloatText9 (rewardWei b), statusOf b)) ∧
    rewardWei b = (b.txs.map costOf).sum - b.baseFee * int64OfUInt64 b.gasUsed ∧
    (∀ t : Tx, t.receiptOutcome = none →
      costOf t = t.gasPrice * (t.gas : Int)
          + (if t.isBlob then t.blobGasFeeCap * (t.blobGas : Int) else 0)
          + t.value ∧
      priceOf t = t.gasPrice) ∧
    (∀ (t : Tx) (r : Receipt), t.receiptOutcome = some r →
      costOf t = r.effectiveGasPrice * int64OfUInt64 r.gasUsed ∧
      priceOf t = r.effectiveGasPrice) := by
  refine ⟨reward_query_success env slotId s cur b bh hparse hfloor hhead hle hbd hbb,
    rfl, ?_, ?_⟩
  · intro t h
    constructor <;> simp [costOf, priceOf, txCost, h]
  · intro t r h
    constructor <;> simp [costOf, priceOf, h]

/-- Witness for `c3_receipt_fallback` at a concrete healthy environment. -/
theorem c3_receipt_fallback_witness :
    getBlockRewardAndStatusBySlot (mkEnv valueBlock) "4700013" =
      some (.ok (goFloatText9 (rewardWei valueBlock), statusOf valueBlock)) ∧
    rewardWei valueBlock =
      (valueBlock.txs.map costOf).sum
        - valueBlock.baseFee * int64OfUInt64 valueBlock.gasUsed ∧
    (∀ t : Tx, t.receiptOutcome = none →
      costOf t = t.gasPrice * (t.gas : Int)
          + (if t.isBlob then t.blobGasFeeCap * (t.blobGas : Int) else 0)
          + t.value ∧
      priceOf t = t.gasPrice) ∧
    (∀ (t : Tx) (r : Receipt), t.receiptOutcome = some r →
      costOf t = r.effectiveGasPrice * int64OfUInt64 r.gasUsed ∧
      priceOf t = r.effectiveGasPrice) :=
  c3_receipt_fallback (mkEnv valueBlock) "4700013" 4700013 4700500
    valueBlock "0xabc" rfl (by decide) rfl (by decide) rfl rfl

/-- Counterexample to claim C3 as stated: `valueTx` has a failed receipt
fetch, declared gas price 1, gas limit 1 and transferred value 5.  The
claimed fallback cost (gas price × gas limit) is 1 and would render as
"0.000000001", but the query charges `tx.Cost()` = 6 and returns
"0.000000006". -/
theorem c3_counterexample :
    getBlockRewardAndStatusBySlot (mkEnv valueBlock) "4700013" =
      some (.ok ("0.000000006", "vanilla")) ∧
    valueTx.receiptOutcome = none ∧
    specFallbackCost valueTx = 1 ∧
    costOf valueTx = 6 ∧
    exactText9 (specFallbackCost valueTx
      - valueBlock.baseFee * int64OfUInt64 valueBlock.gasUsed) = "0.000000001" ∧
    "0.000000006" ≠ "0.000000001" :=
  ⟨rfl, rfl, rfl, rfl, rfl, by decide⟩

/-- Claim C5 (confirmed): permuting the transaction sequence of a resolved
block — each transaction keeping its own receipt outcome — leaves the reward
query's entire result, reward string and classification alike, unchanged:
the cost accumulation is a sum and the classification a disjunction. -/
theorem c5_reorder_invariance (env env2 : Env) (slotId : String)
    (b : Block) (l2 : List Tx)
    (hperm : b.txs.Perm l2)
    (hh : env2.headers = env.headers)
    (hbd : env2.blockDetail = env.blockDetail)
    (hbb : env.blockByHash = .ok b)
    (hbb2 : env2.blockByHash = .ok { b with txs := l2 }) :
    getBlockRewardAndStatusBySlot env2 slotId =
      getBlockRewardAndStatusBySlot env slotId := by
  rw [getBlockRewardAndStatusBySlot, getBlockRewardAndStatusBySlot]
  rcases hp : bigIntSetString slotId with _ | s
  · rfl
  · simp only
    split_ifs with h1
    · rfl
    · have hcur : getCurrentSlotId env2 = getCurrentSlotId env := by
        rw [getCurrentSlotId, getCurrentSlotId, hh]
      rw [hcur]
      rcases hc : getCurrentSlotId env with _ | cur
      · rfl
      · simp only
        split_ifs with h2
        · rfl
        · rw [hbd]
          rcases hbds : sendAPIRequest env.blockDetail with e | v
          · rfl
          · rw [hbb, hbb2]
            simp only [foldl_processTx]
            have hsum : (l2.map costOf).sum = (b.txs.map costOf).sum :=
              ((hperm.map costOf).sum_eq).symm
            have hany : l2.any (mevTx b.baseFee) = b.txs.any (mevTx b.baseFee) :=
              (perm_any hperm _).symm
            simp only [hsum, hany]

/-- Witness for `c5_reorder_invariance`: swapping the two transactions of
`smallBlock` leaves the query result unchanged. -/
theorem c5_reorder_invariance_witness :
    getBlockRewardAndStatusBySlot (mkEnv smallBlockSwapped) "4700013" =
      getBlockRewardAndStatusBySlot (mkEnv smallBlock) "4700013" :=
  c5_reorder_invariance (mkEnv smallBlock) (mkEnv smallBlockSwapped) "4700013"
    smallBlock [mevTx1, vanillaTx1]
    (List.Perm.swap mevTx1 vanillaTx1 []) rfl rfl rfl rfl

/-- Claim C10 (corrected: the rendering is the `big.Float` double rounding,
exact only below `2^62` wei of burnt fee, see `c10_counterexample`).  A block
with an empty transaction list makes the reward query succeed with status
"vanilla" and reward the rendering of `(0 - baseFee * gasUsed) / 10^9` —
there is no special-casing and no failure for empty blocks. -/
theorem c10_empty_block (env : Env) (slotId : String) (s cur : Int)
    (b : Block) (bh : String)
    (hparse : bigIntSetString slotId = some s)
    (hfloor : blocksAvailableAfterSlot < s)
    (hhead : getCurrentSlotId env = some cur)
    (hle : s ≤ cur)
    (hbd : sendAPIRequest env.blockDetail = .ok bh)
    (hbb : env.blockByHash = .ok b)
    (hempty : b.txs = []) :
    getBlockRewardAndStatusBySlot env slotId =
      some (.ok (goFloatText9 (0 - b.baseFee * int64OfUInt64 b.gasUsed), "vanilla")) ∧
    ((b.baseFee * int64OfUInt64 b.gasUsed).natAbs < 2 ^ 62 →
      goFloatText9 (0 - b.baseFee * int64OfUInt64 b.gasUsed) =
        exactText9 (0 - b.baseFee * int64OfUInt64 b.gasUsed)) ∧
    nineFracDigits (goFloatText9 (0 - b.baseFee * int64OfUInt64 b.gasUsed)) := by
  have hres := reward_query_success env slotId s cur b bh hparse hfloor hhead hle hbd hbb
  have hrw : rewardWei b = 0 - b.baseFee * int64OfUInt64 b.gasUsed := by
    rw [rewardWei, hempty]
    simp
  have hst : statusOf b = "vanilla" := by
    rw [statusOf, hempty]
    simp
  refine ⟨by rw [← hrw, ← hst]; exact hres, fun h => ?_, goFloatText9_nineFrac _⟩
  apply goFloatText9_exact
  omega

/-- Witness for `c10_empty_block`: the empty block with base fee 7 and gas
used 2 renders "-0.000000014". -/
theorem c10_empty_block_witness :
    getBlockRewardAndStatusBySlot (mkEnv emptySmallBlock) "4700013" =
      some (.ok (goFloatText9
        (0 - emptySmallBlock.baseFee * int64OfUInt64 emptySmallBlock.gasUsed),
        "vanilla")) ∧
    ((emptySmallBlock.baseFee * int64OfUInt64 emptySmallBlock.gasUsed).natAbs < 2 ^ 62 →
      goFloatText9 (0 - emptySmallBlock.baseFee * int64OfUInt64 emptySmallBlock.gasUsed) =
        exactText9 (0 - emptySmallBlock.baseFee * int64OfUInt64 emptySmallBlock.gasUsed)) ∧
    nineFracDigits (goFloatText9
      (0 - emptySmallBlock.baseFee * int64OfUInt64 emptySmallBlock.gasUsed)) :=
  c10_empty_block (mkEnv emptySmallBlock) "4700013" 4700013 4700500
    emptySmallBlock "0xabc" rfl (by decide) rfl (by decide) rfl rfl rfl

/-- Counterexample to claim C10 as stated: the empty block burning
17200000000000000008 wei is answered with "-17200000000.000000007", while the
exact value of `(0 - baseFee * gasUsed) / 10^9` rendered with 9 decimal
digits is "-17200000000.000000008". -/
theorem c10_counterexample :
    getBlockRewardAndStatusBySlot (mkEnv emptyBigBlock) "4700013" =
      some (.ok ("-17200000000.000000007", "vanilla")) ∧
    emptyBigBlock.txs = [] ∧
    exactText9 (0 - emptyBigBlock.baseFee * int64OfUInt64 emptyBigBlock.gasUsed) =
      "-17200000000.000000008" ∧
    "-17200000000.000000007" ≠ "-17200000000.000000008" :=
  ⟨rfl, rfl, rfl, by decide⟩

/-- Claim C6 (corrected: a `SlotMissing` arising from the REST layer's
upstream status mapping carries the message "Slot is not found", not
"Slot is missing"; see `c6_counterexample`).  For both endpoints a
`SlotMissing` failure yields HTTP 404 with body `{"error": m}` where `m` is
the error's own message — "Slot is missing" from the slot validator,
"Slot is not found" from the upstream 400 mapping; a `FutureSlot` failure
yields HTTP 400 with body `{"error": "Slot is in the future"}` from either
origin; every other failure (including the head-fetch panic) yields a bare
HTTP 500; success yields HTTP 200 with the payload. -/
theorem c6_http_mapping (env : Env) (slotId : String) :
    (∀ m, getBlockRewardAndStatusBySlot env slotId = some (.error (.slotMissing m)) →
      getBlockRewardHandler env slotId = ⟨404, .errObj m⟩ ∧
      (m = "Slot is missing" ∨ m = "Slot is not found")) ∧
    (∀ m, getBlockRewardAndStatusBySlot env slotId = some (.error (.futureSlot m)) →
      getBlockRewardHandler env slotId = ⟨400, .errObj m⟩ ∧
      m = "Slot is in the future") ∧
    (∀ e, getBlockRewardAndStatusBySlot env slotId = some (.error e) →
      (∀ m, e ≠ .slotMissing m) → (∀ m, e ≠ .futureSlot m) →
      getBlockRewardHandler env slotId = ⟨500, .null⟩) ∧
    (getBlockRewardAndStatusBySlot env slotId = none →
      getBlockRewardHandler env slotId = ⟨500, .null⟩) ∧
    (∀ r st, getBlockRewardAndStatusBySlot env slotId = some (.ok (r, st)) →
      getBlockRewardHandler env slotId = ⟨200, .rewardStatus r st⟩) ∧
    (∀ m, getSyncCommitteeDuties env slotId = .error (.slotMissing m) →
      getSyncDutiesHandler env slotId = ⟨404, .errObj m⟩ ∧
      m = "Slot is not found") ∧
    (∀ m, getSyncCommitteeDuties env slotId = .error (.futureSlot m) →
      getSyncDutiesHandler env slotId = ⟨400, .errObj m⟩ ∧
      m = "Slot is in the future") ∧
    (∀ e, getSyncCommitteeDuties env slotId = .error e →
      (∀ m, e ≠ .slotMissing m) → (∀ m, e ≠ .futureSlot m) →
      getSyncDutiesHandler env slotId = ⟨500, .null⟩) ∧
    (∀ ks, getSyncCommitteeDuties env slotId = .ok ks →
      getSyncDutiesHandler env slotId = ⟨200, .pubkeys ks⟩) := by
  refine ⟨?_, ?_, ?_, ?_, ?_, ?_, ?_, ?_, ?_⟩
  · intro m h
    refine ⟨by rw [getBlockRewardHandler, h], ?_⟩
    rcases reward_query_cases env slotId with
        h0 | ⟨r, st, h0⟩ | h0 | h0 | h0 | h0 | h0 | h0 | h0 <;>
      rw [h0] at h <;> simp_all
  · intro m h
    refine ⟨by rw [getBlockRewardHandler, h], ?_⟩
    rcases reward_query_cases env slotId with
        h0 | ⟨r, st, h0⟩ | h0 | h0 | h0 | h0 | h0 | h0 | h0 <;>
      rw [h0] at h <;> simp_all
  · intro e h hne1 hne2
    rw [getBlockRewardHandler, h]
    rcases e with m | m | m | _ | _ | _
    · exact absurd rfl (hne1 m)
    · exact absurd rfl (hne2 m)
    all_goals rfl
  · intro h
    rw [getBlockRewardHandler, h]
  · intro r st h
    rw [getBlockRewardHandler, h]
  · intro m h
    refine ⟨by rw [getSyncDutiesHandler, h], ?_⟩
    rcases duty_query_cases env slotId with ⟨ks, h0⟩ | h0 | h0 | h0 | h0 <;>
      rw [h0] at h <;> simp_all
  · intro m h
    refine ⟨by rw [getSyncDutiesHandler, h], ?_⟩
    rcases duty_query_cases env slotId with ⟨ks, h0⟩ | h0 | h0 | h0 | h0 <;>
      rw [h0] at h <;> simp_all
  · intro e h hne1 hne2
    rw [getSyncDutiesHandler, h]
    rcases e with m | m | m | _ | _ | _
    · exact absurd rfl (hne1 m)
    · exact absurd rfl (hne2 m)
    all_goals rfl
  · intro ks h
    rw [getSyncDutiesHandler, h]

/-- Witness for `c6_http_mapping`: the duty query against an upstream
answering 400 is mapped to 404 with "Slot is not found"; a floor-rejected
reward query is mapped to 404 with "Slot is missing". -/
theorem c6_http_mapping_witness :
    getSyncDutiesHandler duty400Env "10" = ⟨404, .errObj "Slot is not found"⟩ ∧
    getBlockRewardHandler (mkEnv bigRewardBlock) "5" =
      ⟨404, .errObj "Slot is missing"⟩ :=
  ⟨((c6_http_mapping duty400Env "10").2.2.2.2.2.1 "Slot is not found" rfl).1,
   ((c6_http_mapping (mkEnv bigRewardBlock) "5").1 "Slot is missing" rfl).1⟩

/-- Counterexample to claim C6 as stated: a duty query whose upstream answers
400 fails with `SlotMissing` and is returned as HTTP 404 — but with body
message "Slot is not found", not the claimed "Slot is missing". -/
theorem c6_counterexample :
    getSyncDutiesHandler duty400Env "10" = ⟨404, .errObj "Slot is not found"⟩ ∧
    "Slot is not found" ≠ "Slot is missing" :=
  ⟨rfl, by decide⟩

end StakingService
